import Mathlib

/-!
Verification of the MansionNet WeatherBot IRC client (src/weatherbot.py).

The protocol-facing code is shallowly embedded over `List Char` (decoded
text).  Python string primitives used by the source (`str.split` with and
without separator, `in` substring test, `str.startswith`, `str.strip`,
`str.find`-then-slice, indexing that can raise `IndexError`) are modelled
as executable Lean functions with the same semantics on the inputs the
program feeds them.
-/

/-- The only exception kind the dispatch code can raise on a text line:
Python `IndexError` from an out-of-range list index. -/
inductive PyErr where
  | indexError
deriving DecidableEq

/-- Characters Python `str.split()` / `str.strip()` treat as whitespace
(the ASCII subset, which is all the program ever meets). -/
def isPySpace (c : Char) : Bool :=
  c = ' ' || c = '\t' || c = '\n' || c = '\r' || c = '\x0b' || c = '\x0c'

/-- Helper for splitters: prepend a character to the first piece. -/
def consHead (c : Char) : List (List Char) → List (List Char)
  | [] => [[c]]
  | l :: ls => (c :: l) :: ls

/-- Python `s.split("\r\n")`: split at every occurrence of CRLF,
leftmost-first.  Always returns at least one (possibly empty) piece,
exactly like the Python method. -/
def splitCRLF : List Char → List (List Char)
  | [] => [[]]
  | [c] => [[c]]
  | c :: d :: rest =>
    if c = '\r' ∧ d = '\n' then [] :: splitCRLF rest
    else consHead c (splitCRLF (d :: rest))

/-- The CRLF line terminator. -/
def crlf : List Char := ['\r', '\n']

/-- Split a nonempty list of pieces into (initial pieces, last piece);
models `lines.pop()` on the result of a split ([] input never occurs). -/
def splitLastAux : List (List Char) → List (List Char) × List Char
  | [] => ([], [])
  | [l] => ([], l)
  | l :: l' :: ls =>
    let p := splitLastAux (l' :: ls)
    (l :: p.1, p.2)

/-- One iteration of the framing in `WeatherBot.run` (lines 164-166):
`buffer += chunk; lines = buffer.split("\r\n"); buffer = lines.pop()`.
Returns (complete lines yielded, new residual buffer). -/
def framerStep (buffer chunk : List Char) : List (List Char) × List Char :=
  splitLastAux (splitCRLF (buffer ++ chunk))

/-- Run the framing step over a sequence of received chunks starting from
a given residual buffer; returns all yielded lines in order and the final
residual buffer. -/
def framerRunFrom (buffer : List Char) : List (List Char) → List (List Char) × List Char
  | [] => ([], buffer)
  | c :: cs =>
    let p := framerStep buffer c
    let q := framerRunFrom p.2 cs
    (p.1 ++ q.1, q.2)

/-- Run the framer from the fresh empty buffer of line 159. -/
def framerRun (chunks : List (List Char)) : List (List Char) × List Char :=
  framerRunFrom [] chunks

/-- Reinsert the stripped CRLF terminator after each yielded line and
concatenate. -/
def rejoinLines : List (List Char) → List Char
  | [] => []
  | l :: ls => l ++ crlf ++ rejoinLines ls

/-- Concatenation of a chunk sequence back into the original stream. -/
def concatChunks : List (List Char) → List Char
  | [] => []
  | c :: cs => c ++ concatChunks cs

/-- Join split pieces back with CRLF between them (specification-side
inverse of `splitCRLF`). -/
def joinCRLF : List (List Char) → List Char
  | [] => []
  | [l] => l
  | l :: ls => l ++ crlf ++ joinCRLF ls

/-- Python substring test `pat in s` (for nonempty `pat`). -/
def occursSub (pat : List Char) : List Char → Bool
  | [] => pat.isEmpty
  | c :: cs => List.isPrefixOf pat (c :: cs) || occursSub pat cs

/-- Fuel-indexed worker for Python `s.split(pat)` with a nonempty
separator `pat`: split at every leftmost, non-overlapping occurrence.
With fuel at least `s.length` the fuel never runs out. -/
def splitSubFuel (pat : List Char) : Nat → List Char → List (List Char)
  | _, [] => [[]]
  | 0, s => [s]
  | n + 1, c :: cs =>
    if List.isPrefixOf pat (c :: cs) then
      [] :: splitSubFuel pat n (List.drop pat.length (c :: cs))
    else consHead c (splitSubFuel pat n cs)

/-- Python `s.split(pat)` for nonempty `pat`. -/
def pySplitSub (pat s : List Char) : List (List Char) :=
  splitSubFuel pat s.length s

/-- Worker for Python whitespace `s.split()`: `cur` is the pending token. -/
def splitWsAux (cur : List Char) : List Char → List (List Char)
  | [] => if cur.isEmpty then [] else [cur]
  | c :: cs =>
    if isPySpace c then
      if cur.isEmpty then splitWsAux [] cs else cur :: splitWsAux [] cs
    else splitWsAux (cur ++ [c]) cs

/-- Python `s.split()` (no separator): tokens are maximal runs of
non-whitespace; no empty tokens are produced. -/
def pySplitWs (s : List Char) : List (List Char) :=
  splitWsAux [] s

/-- Python `s.split(":", 1)` viewed through the first occurrence: returns
the pieces before and after the first `':'`, or `none` when there is no
`':'` (in which case `split(":", 1)[1]` raises `IndexError`). -/
def breakAtColon : List Char → Option (List Char × List Char)
  | [] => none
  | c :: cs =>
    if c = ':' then some ([], cs)
    else (breakAtColon cs).map (fun p => (c :: p.1, p.2))

/-- Python `s.lstrip()` on ASCII whitespace. -/
def pyLStrip (s : List Char) : List Char := s.dropWhile isPySpace

/-- Python `s.strip()` on ASCII whitespace. -/
def pyStrip (s : List Char) : List Char :=
  ((pyLStrip s).reverse.dropWhile isPySpace).reverse

/-- Python `s.startswith(pre)`. -/
def pyStartsWith (pre s : List Char) : Bool := List.isPrefixOf pre s

/-- Python `s[s.find(pat):]` under the guarantee that `pat` occurs in `s`
(the source only evaluates it under `if "PING" in buffer`). -/
def dropFromPat (pat : List Char) : List Char → List Char
  | [] => []
  | c :: cs => if List.isPrefixOf pat (c :: cs) then c :: cs else dropFromPat pat cs

/-- Python `" ".join(ws)`. -/
def joinSpace : List (List Char) → List Char
  | [] => []
  | [w] => w
  | w :: ws => w ++ ' ' :: joinSpace ws

/-- `xs[i]` as the Python expression: `some` value or `IndexError`. -/
def pyIndex (xs : List (List Char)) (i : Nat) : Option (List Char) := xs.get? i

/-! ## Protocol constants from the source -/

def pingChars : List Char := "PING".data
def pmChars : List Char := "PRIVMSG".data
def reg001 : List Char := "001".data
def closingLinkChars : List Char := "Closing Link".data
def errorChars : List Char := "ERROR".data
def weatherCmd : List Char := "!weather".data
def helpCmd : List Char := "!help".data
def usageMsg : List Char := "Usage: !weather <city>".data
def helpMsg : List Char :=
  "MansionNet Weather Bot | Commands: !weather <city> - Get weather information for a city".data

/-- The configured channel list of `WeatherBot.__init__`. -/
def botChannels : List (List Char) := ["#help".data, "#welcome".data]

/-- `self.send(f"PONG {ping_token}")`. -/
def pongMsg (tok : List Char) : List Char := "PONG ".data ++ tok

/-- `send_message`: `self.send(f"PRIVMSG {target} :{message}")`. -/
def privmsgOut (target message : List Char) : List Char :=
  "PRIVMSG ".data ++ target ++ " :".data ++ message

/-! ## Command dispatch (`WeatherBot.run`, lines 168-201) -/

/-- What the command-handling block of lines 189-201 decides to do with a
channel message. -/
inductive RouterAction where
  | weather (city : List Char)
  | usage
  | help
deriving DecidableEq

/-- Lines 189-201: `message.startswith("!weather")` picks the weather
branch (usage reply when no further word, else lookup of the remaining
words joined by single spaces); otherwise `message == "!help"` picks the
help reply; otherwise nothing. -/
def routeMessage (message : List Char) : Option RouterAction :=
  if pyStartsWith weatherCmd message then
    if (pySplitWs message).length > 1 then
      some (RouterAction.weather (joinSpace ((pySplitWs message).drop 1)))
    else some RouterAction.usage
  else if message = helpCmd then some RouterAction.help
  else none

/-- Line 180: `parts = line.split(); target_channel = parts[2]`. -/
def pmTarget (line : List Char) : Option (List Char) :=
  pyIndex (pySplitWs line) 2

/-- Line 184: `sender = line.split("!")[0][1:]` (index 0 always exists and
slicing never raises). -/
def pmSender (line : List Char) : List Char :=
  match pySplitSub ['!'] line with
  | [] => []
  | p :: _ => p.drop 1

/-- Line 185: `message = line.split("PRIVMSG")[1].split(":", 1)[1].strip()`;
`none` models the `IndexError` raised when a piece is missing. -/
def pmMessage (line : List Char) : Option (List Char) :=
  match pyIndex (pySplitSub pmChars line) 1 with
  | none => none
  | some seg =>
    match breakAtColon seg with
    | none => none
    | some p => some (pyStrip p.2)

/-- Lines 172-174: the PING branch of the per-line dispatch.  Returns the
messages sent and, when `line.split()[1]` is out of range, the raised
`IndexError`. -/
def pingPhase (line : List Char) : List (List Char) × Option PyErr :=
  if pyStartsWith pingChars line then
    match pyIndex (pySplitWs line) 1 with
    | none => ([], some PyErr.indexError)
    | some tok => ([pongMsg tok], none)
  else ([], none)

/-- Lines 177-201: the PRIVMSG branch of the per-line dispatch.  `fetch`
is the external `get_weather` collaborator (city → reply string). -/
def privmsgPhase (channels : List (List Char)) (fetch : List Char → List Char)
    (line : List Char) : List (List Char) × Option PyErr :=
  if occursSub pmChars line then
    match pmTarget line with
    | none => ([], some PyErr.indexError)
    | some target =>
      if target ∈ channels then
        match pmMessage line with
        | none => ([], some PyErr.indexError)
        | some message =>
          match routeMessage message with
          | some (RouterAction.weather city) => ([privmsgOut target (fetch city)], none)
          | some RouterAction.usage => ([privmsgOut target usageMsg], none)
          | some RouterAction.help => ([privmsgOut target helpMsg], none)
          | none => ([], none)
      else ([], none)
  else ([], none)

/-- Processing of one framed line by the body of the `for line in lines`
loop: the PING branch runs first, then (on the same line) the PRIVMSG
branch.  Outputs already sent survive a later exception, matching the
side-effect order of the source. -/
def processLine (channels : List (List Char)) (fetch : List Char → List Char)
    (line : List Char) : List (List Char) × Option PyErr :=
  match pingPhase line with
  | (o, some e) => (o, some e)
  | (o, none) =>
    let p := privmsgPhase channels fetch line
    (o ++ p.1, p.2)

/-- Processing of one batch of framed lines.  An uncaught exception on a
line aborts the loop: later lines of the batch are not processed. -/
def processBatch (channels : List (List Char)) (fetch : List Char → List Char) :
    List (List Char) → List (List Char) × Option PyErr
  | [] => ([], none)
  | l :: ls =>
    match processLine channels fetch l with
    | (o, some e) => (o, some e)
    | (o, none) =>
      let p := processBatch channels fetch ls
      (o ++ p.1, p.2)

/-- One iteration of the active read/dispatch loop (lines 161-201):
frame the received chunk against the residual buffer, then process the
complete lines.  Returns (messages sent, new residual buffer, uncaught
exception if any). -/
def activeStep (channels : List (List Char)) (fetch : List Char → List Char)
    (buffer chunk : List Char) : List (List Char) × List Char × Option PyErr :=
  let p := framerStep buffer chunk
  let q := processBatch channels fetch p.1
  (q.1, p.2, q.2)

/-- The active loop over a finite sequence of received chunks, starting
from a residual buffer.  Stops early when an uncaught exception escapes
the inner loop (which in the source aborts the connection). -/
def activeRun (channels : List (List Char)) (fetch : List Char → List Char)
    (buffer : List Char) : List (List Char) → List (List Char) × List Char × Option PyErr
  | [] => ([], buffer, none)
  | c :: cs =>
    match activeStep channels fetch buffer c with
    | (o, b', some e) => (o, b', some e)
    | (o, b', none) =>
      let q := activeRun channels fetch b' cs
      (o ++ q.1, q.2.1, q.2.2)

/-! ## Registration loop (`WeatherBot.connect`, lines 40-72) -/

/-- The three ways one iteration of the registration wait can leave the
loop state: keep waiting with the accumulated buffer, exit registered
(`001` seen), or abandon the attempt (`return False`). -/
inductive RegOutcome where
  | waiting (buffer : List Char)
  | registered
  | failed
deriving DecidableEq

/-- Checks of lines 54-64, run after the PING branch: `"001" in buffer`
exits registered, else `"Closing Link" in buffer or "ERROR" in buffer`
abandons the attempt, else the loop continues with the (never trimmed)
accumulated buffer. -/
def regAfterPing (b : List Char) (pongs : List (List Char)) :
    List (List Char) × RegOutcome :=
  if occursSub reg001 b then (pongs, RegOutcome.registered)
  else if occursSub closingLinkChars b || occursSub errorChars b then (pongs, RegOutcome.failed)
  else (pongs, RegOutcome.waiting b)

/-- One iteration of the registration wait (lines 42-64): append the
received chunk, answer `PONG` when `"PING"` occurs anywhere in the
accumulated buffer (echoing the token after the first occurrence, via
`buffer[buffer.find("PING"):].split()[1]`), then run the 001/error
checks.  A missing token raises `IndexError`, which the broad
`except Exception` turns into `return False`. -/
def regStep (buffer chunk : List Char) : List (List Char) × RegOutcome :=
  let b := buffer ++ chunk
  if occursSub pingChars b then
    match pyIndex (pySplitWs (dropFromPat pingChars b)) 1 with
    | none => ([], RegOutcome.failed)
    | some tok => regAfterPing b [pongMsg tok]
  else regAfterPing b []

/-- The registration wait over a finite sequence of received chunks.
Result `none` means every chunk was consumed and the loop is still
waiting; `some true`/`some false` are the registered/failed exits. -/
def regRun (buffer : List Char) : List (List Char) → List (List Char) × Option Bool
  | [] => ([], none)
  | c :: cs =>
    match regStep buffer c with
    | (o, RegOutcome.registered) => (o, some true)
    | (o, RegOutcome.failed) => (o, some false)
    | (o, RegOutcome.waiting b') =>
      let q := regRun b' cs
      (o ++ q.1, q.2)

/-! ## Weather lookup (`get_coordinates` / `get_weather`, lines 91-152) -/

/-- Result of a `requests.get(...)` call together with the JSON decode of
its body: either a response with a status code and parsed payload, or an
exception (connection error, JSON parse failure, missing key) whose
`str(e)` rendering is carried along. -/
inductive HttpResult (α : Type) where
  | ok (status : Nat) (body : α)
  | exn (msg : List Char)

/-- One element of the geocoding `results` array (lines 99-105); numeric
fields are carried as their textual rendering, which is all the program
does with them. -/
structure GeoLocation where
  lat : List Char
  lon : List Char
  name : List Char
  country : List Char

/-- The `current` object of the forecast response (lines 125, 141-147). -/
structure CurrentWx where
  temperature_2m : List Char
  relative_humidity_2m : List Char
  wind_speed_10m : List Char
  weather_code : Int

/-- The fixed weather-code table of lines 128-139 (`weather_codes.get`
with default `"Unknown"` is `Option.getD` below). -/
def weather_codes (c : Int) : Option (List Char) :=
  if c = 0 then some ("Clear sky".data)
  else if c = 1 then some ("Mainly clear".data)
  else if c = 2 then some ("Partly cloudy".data)
  else if c = 3 then some ("Overcast".data)
  else if c = 45 then some ("Foggy".data)
  else if c = 48 then some ("Depositing rime fog".data)
  else if c = 51 then some ("Light drizzle".data)
  else if c = 53 then some ("Moderate drizzle".data)
  else if c = 55 then some ("Dense drizzle".data)
  else if c = 61 then some ("Slight rain".data)
  else if c = 63 then some ("Moderate rain".data)
  else if c = 65 then some ("Heavy rain".data)
  else if c = 71 then some ("Slight snow".data)
  else if c = 73 then some ("Moderate snow".data)
  else if c = 75 then some ("Heavy snow".data)
  else if c = 77 then some ("Snow grains".data)
  else if c = 80 then some ("Slight rain showers".data)
  else if c = 81 then some ("Moderate rain showers".data)
  else if c = 82 then some ("Violent rain showers".data)
  else if c = 85 then some ("Slight snow showers".data)
  else if c = 86 then some ("Heavy snow showers".data)
  else if c = 95 then some ("Thunderstorm".data)
  else if c = 96 then some ("Thunderstorm with hail".data)
  else if c = 99 then some ("Thunderstorm with heavy hail".data)
  else none

/-- `get_coordinates` (lines 91-109) as a function of the geocoding call
outcome: returns the first result when the status is 200 and the
`results` array is nonempty, `None` otherwise; every exception is caught
and also yields `None`. -/
def get_coordinates (resp : HttpResult (List GeoLocation)) : Option GeoLocation :=
  match resp with
  | HttpResult.exn _ => none
  | HttpResult.ok status results =>
    if status = 200 then
      match results with
      | [] => none
      | loc :: _ => some loc
    else none

/-- The success reply format of lines 143-147. -/
def weatherReport (name country desc temp hum wind : List Char) : List Char :=
  "Weather in ".data ++ name ++ ", ".data ++ country ++ ": ".data ++ desc ++
    ", Temperature: ".data ++ temp ++ "°C, Humidity: ".data ++ hum ++
    "%, Wind: ".data ++ wind ++ " km/h".data

/-- `get_weather` (lines 111-152) as a function of the city and of the
outcomes of its two external calls.  A forecast body without a `current`
object raises `KeyError('current')` inside the `try`, which the handler
renders as `str(e)`; the `HttpResult.exn` constructor carries that
rendering uniformly for every exception the `except` block can catch. -/
def get_weather (city : List Char) (geoResp : HttpResult (List GeoLocation))
    (wxResp : HttpResult (Option CurrentWx)) : List Char :=
  match get_coordinates geoResp with
  | none => "Could not find location: ".data ++ city
  | some loc =>
    match wxResp with
    | HttpResult.exn msg => "Error fetching weather data: ".data ++ msg
    | HttpResult.ok status body =>
      if status = 200 then
        match body with
        | none => "Error fetching weather data: ".data ++ "'current'".data
        | some current =>
          weatherReport loc.name loc.country
            ((weather_codes current.weather_code).getD ("Unknown".data))
            current.temperature_2m current.relative_humidity_2m current.wind_speed_10m
      else "Could not fetch weather data for ".data ++ city

/-! ## Outer supervision loop (`WeatherBot.run`, lines 154-210) -/

/-- The cooldown of line 209 (`time.sleep(30)`) applied after any fatal
error escaping the active loop. -/
def reconnectCooldown : Nat := 30

/-- The delay of lines 63/71 (`time.sleep(5)`) applied when a
registration attempt is abandoned. -/
def registrationRetryDelay : Nat := 5

/-- Observable events of the outer loop. -/
inductive Ev where
  | connectAttempt
  | bufferReset
  | out (msg : List Char)
  | sleep (n : Nat)
deriving DecidableEq

/-- Script of one connection attempt: whether `connect()` returned True,
and the chunks received in the active loop before the link dies with a
fatal read error. -/
structure SessionScript where
  connectResult : Bool
  chunks : List (List Char)

/-- Events of one iteration of the outer `while True` (lines 156-210):
on a successful `connect()` the local `buffer` is re-created empty (line
159) and the active loop runs until its fatal end, after which the
`except` block sleeps 30 seconds; an abandoned registration already slept
5 seconds inside `connect()`. -/
def sessionEvents (channels : List (List Char)) (fetch : List Char → List Char)
    (s : SessionScript) : List Ev :=
  if s.connectResult then
    Ev.bufferReset ::
      ((activeRun channels fetch [] s.chunks).1.map Ev.out ++ [Ev.sleep reconnectCooldown])
  else [Ev.sleep registrationRetryDelay]

/-- The outer supervision loop over a finite list of connection attempts. -/
def runBot (channels : List (List Char)) (fetch : List Char → List Char) :
    List SessionScript → List Ev
  | [] => []
  | s :: rest =>
    Ev.connectAttempt :: (sessionEvents channels fetch s ++ runBot channels fetch rest)

/-- A fixed stub for the external weather collaborator, used in concrete
instantiations. -/
def stubFetch : List Char → List Char := fun _ => "sunny".data

/-! # Lemmas about the framing step -/

theorem consHead_ne_nil (c : Char) (L : List (List Char)) : consHead c L ≠ [] := by
  cases L <;> simp [consHead]

theorem splitCRLF_ne_nil (s : List Char) : splitCRLF s ≠ [] := by
  match s with
  | [] => simp [splitCRLF]
  | [c] => simp [splitCRLF]
  | c :: d :: rest =>
    rw [splitCRLF]
    split
    · simp
    · exact consHead_ne_nil _ _

theorem joinCRLF_cons_of_ne_nil (l : List Char) (L : List (List Char)) (h : L ≠ []) :
    joinCRLF (l :: L) = l ++ crlf ++ joinCRLF L := by
  cases L with
  | nil => exact absurd rfl h
  | cons l' ls => rfl

theorem joinCRLF_consHead (c : Char) (L : List (List Char)) (h : L ≠ []) :
    joinCRLF (consHead c L) = c :: joinCRLF L := by
  cases L with
  | nil => exact absurd rfl h
  | cons l ls =>
    cases ls with
    | nil => rfl
    | cons l' ls' => rfl

theorem joinCRLF_splitCRLF (s : List Char) : joinCRLF (splitCRLF s) = s := by
  match s with
  | [] => rfl
  | [c] => rfl
  | c :: d :: rest =>
    rw [splitCRLF]
    split
    · rename_i h
      rw [joinCRLF_cons_of_ne_nil _ _ (splitCRLF_ne_nil rest), joinCRLF_splitCRLF rest]
      simp [crlf, h.1, h.2]
    · rw [joinCRLF_consHead _ _ (splitCRLF_ne_nil (d :: rest)),
        joinCRLF_splitCRLF (d :: rest)]

theorem splitLastAux_concat (init : List (List Char)) (last : List Char) :
    splitLastAux (init ++ [last]) = (init, last) := by
  induction init with
  | nil => rfl
  | cons l init' ih =>
    cases init' with
    | nil => rfl
    | cons l' init'' =>
      have hstep : splitLastAux (l :: l' :: (init'' ++ [last])) =
          (l :: (splitLastAux (l' :: (init'' ++ [last]))).1,
            (splitLastAux (l' :: (init'' ++ [last]))).2) := rfl
      show splitLastAux (l :: l' :: (init'' ++ [last])) = _
      rw [hstep]
      have ih' : splitLastAux (l' :: (init'' ++ [last])) = (l' :: init'', last) := ih
      rw [ih']

theorem rejoinLines_append (a b : List (List Char)) :
    rejoinLines (a ++ b) = rejoinLines a ++ rejoinLines b := by
  induction a with
  | nil => rfl
  | cons l a' ih => simp [rejoinLines, ih]

theorem joinCRLF_concat (init : List (List Char)) (last : List Char) :
    joinCRLF (init ++ [last]) = rejoinLines init ++ last := by
  induction init with
  | nil => rfl
  | cons l init' ih =>
    rw [List.cons_append,
      joinCRLF_cons_of_ne_nil _ _ (by simp : init' ++ [last] ≠ []), ih]
    simp [rejoinLines]

theorem framerStep_rejoin (buffer chunk : List Char) :
    rejoinLines (framerStep buffer chunk).1 ++ (framerStep buffer chunk).2 =
      buffer ++ chunk := by
  rcases List.eq_nil_or_concat (splitCRLF (buffer ++ chunk)) with h | ⟨L, b, h⟩
  · exact absurd h (splitCRLF_ne_nil _)
  · rw [List.concat_eq_append] at h
    have hj : joinCRLF (splitCRLF (buffer ++ chunk)) = buffer ++ chunk :=
      joinCRLF_splitCRLF _
    rw [h, joinCRLF_concat] at hj
    rw [framerStep, h, splitLastAux_concat]
    exact hj

theorem framerRunFrom_rejoin (chunks : List (List Char)) :
    ∀ buffer : List Char,
      rejoinLines (framerRunFrom buffer chunks).1 ++ (framerRunFrom buffer chunks).2 =
        buffer ++ concatChunks chunks := by
  induction chunks with
  | nil => intro buffer; simp [framerRunFrom, rejoinLines, concatChunks]
  | cons c cs ih =>
    intro buffer
    have hstep := framerStep_rejoin buffer c
    have hrec := ih (framerStep buffer c).2
    simp only [framerRunFrom, concatChunks, rejoinLines_append]
    rw [List.append_assoc, hrec, ← List.append_assoc, hstep, List.append_assoc]

/-- Claim C2: for every input and every way of cutting it into chunks fed
to the framing step one at a time, the yielded lines with their CRLF
terminators reinserted, followed by the residual buffer, reassemble the
original input exactly; and a CRLF split between two consecutive chunks
still yields the single correct line. -/
theorem c2_framer_chunking_transparent :
    (∀ (input : List Char) (chunks : List (List Char)),
      concatChunks chunks = input →
      rejoinLines (framerRun chunks).1 ++ (framerRun chunks).2 = input) ∧
    framerRun ["hello\r".data, "\nworld\r\n".data] =
      (["hello".data, "world".data], []) := by
  constructor
  · intro input chunks h
    have := framerRunFrom_rejoin chunks []
    rw [framerRun]
    rw [this, List.nil_append, h]
  · decide

/-- Witness for C2 at a concrete chunking whose cut falls between the
`'\r'` and the `'\n'` of a terminator. -/
theorem c2_witness :
    rejoinLines (framerRun ["hello\r".data, "\nworld\r\n".data]).1 ++
        (framerRun ["hello\r".data, "\nworld\r\n".data]).2 =
      "hello\r\nworld\r\n".data :=
  c2_framer_chunking_transparent.1 ("hello\r\nworld\r\n".data)
    ["hello\r".data, "\nworld\r\n".data] (by decide)

/-! # Lemmas about the Python substring primitives -/

theorem isPrefixOf_true_iff : ∀ p s : List Char, List.isPrefixOf p s = true ↔ p <+: s
  | [], s => by simp [List.isPrefixOf]
  | c :: p, [] => by simp [List.isPrefixOf]
  | c :: p, d :: s => by
    simp only [List.isPrefixOf, Bool.and_eq_true, beq_iff_eq, List.cons_prefix_cons]
    exact and_congr Iff.rfl (isPrefixOf_true_iff p s)

theorem isPrefixOf_false_iff (p s : List Char) :
    List.isPrefixOf p s = false ↔ ¬ p <+: s := by
  rw [← isPrefixOf_true_iff p s, Bool.eq_false_iff]

theorem occursSub_true_iff (pat : List Char) : ∀ s, occursSub pat s = true ↔ pat <:+: s := by
  intro s
  induction s with
  | nil =>
    simp only [occursSub, List.isEmpty_iff, List.infix_nil]
  | cons c cs ih =>
    simp only [occursSub, Bool.or_eq_true, isPrefixOf_true_iff, ih, List.infix_cons_iff]

theorem occursSub_false_iff (pat s : List Char) :
    occursSub pat s = false ↔ ¬ pat <:+: s := by
  rw [← occursSub_true_iff pat s, Bool.eq_false_iff]

theorem infix_of_cons_elim {pat : List Char} {c : Char} {l : List Char}
    (h : pat <:+: c :: l) (hc : c ∉ pat) : pat <:+: l := by
  rcases List.infix_cons_iff.mp h with hp | hi
  · cases pat with
    | nil => exact List.nil_infix
    | cons p ps =>
      rcases List.cons_prefix_cons.mp hp with ⟨he, _⟩
      exact absurd (he ▸ List.mem_cons_self p ps) hc
  · exact hi

theorem infix_of_concat_elim {pat : List Char} {c : Char} {l : List Char}
    (h : pat <:+: l ++ [c]) (hc : c ∉ pat) : pat <:+: l := by
  rw [← List.reverse_infix] at h ⊢
  rw [List.reverse_append, List.reverse_singleton] at h
  exact infix_of_cons_elim h (by simpa using hc)

theorem infix_of_middle_elim {pat : List Char} {c : Char} :
    ∀ {u v : List Char}, pat <:+: u ++ c :: v → c ∉ pat → pat <:+: u ∨ pat <:+: v := by
  intro u
  induction u with
  | nil =>
    intro v h hc
    exact Or.inr (infix_of_cons_elim h hc)
  | cons a u' ih =>
    intro v h hc
    rw [List.cons_append] at h
    rcases List.infix_cons_iff.mp h with hp | hi
    · rcases le_or_lt pat.length (a :: u').length with hle | hlt
      · have hu : pat <+: a :: u' :=
          List.prefix_of_prefix_length_le hp (List.prefix_append _ _) hle
        exact Or.inl hu.isInfix
      · exfalso
        have hidx : (a :: u').length < ((a :: u') ++ c :: v).length := by
          simp
        have hc2 : ((a :: u') ++ c :: v).get (Fin.mk (a :: u').length hidx) = c := by
          rw [List.get_eq_getElem, List.getElem_append_right (Nat.le_refl _)]
          simp
        have hpe : pat.get (Fin.mk (a :: u').length hlt) =
            ((a :: u') ++ c :: v).get (Fin.mk (a :: u').length hidx) := by
          rw [List.get_eq_getElem, List.get_eq_getElem]
          exact List.IsPrefix.getElem hp hlt
        have hmem : pat.get (Fin.mk (a :: u').length hlt) ∈ pat :=
          List.get_mem pat (a :: u').length hlt
        rw [hpe, hc2] at hmem
        exact hc hmem
    · rcases ih hi hc with h1 | h2
      · exact Or.inl (h1.trans (List.infix_cons_iff.mpr (Or.inr (List.infix_refl _))))
      · exact Or.inr h2

theorem mem_of_getLast_eq {l : List Char} {a : Char} (h : l.getLast? = some a) : a ∈ l := by
  cases l with
  | nil => simp at h
  | cons c cs =>
    rw [List.getLast?_eq_getLast (c :: cs) (by simp)] at h
    have h2 : (c :: cs).getLast (by simp) ∈ c :: cs := List.getLast_mem _
    rwa [Option.some_inj.mp h] at h2

theorem splitSubFuel_nil_arg (pat : List Char) (n : Nat) : splitSubFuel pat n [] = [[]] := by
  cases n <;> rfl

theorem splitSubFuel_cons (pat : List Char) (n : Nat) (c : Char) (cs : List Char) :
    splitSubFuel pat (n + 1) (c :: cs) =
      if List.isPrefixOf pat (c :: cs) then
        [] :: splitSubFuel pat n (List.drop pat.length (c :: cs))
      else consHead c (splitSubFuel pat n cs) := rfl

theorem splitSubFuel_fuel_irrel (pat : List Char) (hp : pat ≠ []) :
    ∀ n s, List.length s ≤ n → splitSubFuel pat n s = pySplitSub pat s := by
  intro n
  induction n using Nat.strong_induction_on with
  | _ n ih =>
    intro s hs
    cases s with
    | nil => rw [splitSubFuel_nil_arg, pySplitSub, splitSubFuel_nil_arg]
    | cons c cs =>
      cases n with
      | zero => simp at hs
      | succ n' =>
        have hcs : cs.length ≤ n' := Nat.succ_le_succ_iff.mp hs
        have hpat1 : 1 ≤ pat.length := by
          cases pat with
          | nil => exact absurd rfl hp
          | cons p p' => simp
        have hdrop : (List.drop pat.length (c :: cs)).length ≤ cs.length := by
          rw [List.length_drop]
          simp only [List.length_cons]
          omega
        rw [pySplitSub]
        show splitSubFuel pat (n' + 1) (c :: cs) =
          splitSubFuel pat (cs.length + 1) (c :: cs)
        rw [splitSubFuel_cons, splitSubFuel_cons]
        by_cases hpre : List.isPrefixOf pat (c :: cs)
        · rw [if_pos hpre, if_pos hpre]
          rw [ih n' (Nat.lt_succ_self n') _ (hdrop.trans hcs),
            ih cs.length (Nat.lt_succ_of_le hcs) _ hdrop]
        · rw [if_neg hpre, if_neg hpre]
          rw [ih n' (Nat.lt_succ_self n') cs hcs,
            ih cs.length (Nat.lt_succ_of_le hcs) cs (Nat.le_refl _)]

theorem splitSubFuel_no_occ (pat : List Char) :
    ∀ s n, occursSub pat s = false → splitSubFuel pat n s = [s] := by
  intro s
  induction s with
  | nil =>
    intro n h
    rw [occursSub] at h
    rw [splitSubFuel_nil_arg]
  | cons c cs ih =>
    intro n h
    rw [occursSub, Bool.or_eq_false_iff] at h
    cases n with
    | zero => rfl
    | succ n' =>
      rw [splitSubFuel_cons, if_neg (by rw [h.1]; exact Bool.false_ne_true), ih n' h.2]
      rfl

theorem pySplitSub_no_occ (pat s : List Char) (h : occursSub pat s = false) :
    pySplitSub pat s = [s] :=
  splitSubFuel_no_occ pat s s.length h

theorem pySplitSub_boundary (pat : List Char) (hp : pat ≠ []) :
    ∀ (a b : List Char),
      (∀ t, t ≠ [] → t <:+ a → List.isPrefixOf pat (t ++ pat ++ b) = false) →
      pySplitSub pat (a ++ pat ++ b) = a :: pySplitSub pat b := by
  intro a
  induction a with
  | nil =>
    intro b _
    rcases List.exists_cons_of_ne_nil hp with ⟨p, p', hpat⟩
    subst hpat
    show splitSubFuel (p :: p') ((p' ++ b).length + 1) (p :: (p' ++ b)) = _
    rw [splitSubFuel_cons]
    have hc : List.isPrefixOf (p :: p') (p :: (p' ++ b)) = true := by
      rw [isPrefixOf_true_iff]
      exact List.prefix_append (p :: p') b
    rw [if_pos hc]
    have hd : List.drop (p :: p').length (p :: (p' ++ b)) = b :=
      List.drop_left (p :: p') b
    rw [hd, splitSubFuel_fuel_irrel (p :: p') (by simp) (p' ++ b).length b
      (by simp only [List.length_append]; omega)]
  | cons c a' ih =>
    intro b H
    show splitSubFuel pat ((a' ++ pat ++ b).length + 1) (c :: (a' ++ pat ++ b)) = _
    rw [splitSubFuel_cons]
    have hc : List.isPrefixOf pat (c :: (a' ++ pat ++ b)) = false := by
      have := H (c :: a') (by simp) (List.suffix_refl _)
      simpa using this
    rw [if_neg (by rw [hc]; exact Bool.false_ne_true)]
    rw [show splitSubFuel pat (a' ++ pat ++ b).length (a' ++ pat ++ b) =
        pySplitSub pat (a' ++ pat ++ b) from rfl]
    rw [ih b (fun t ht hsuf => H t ht (hsuf.trans (List.suffix_cons c a')))]
    rfl

theorem no_prefix_shift (pat a b : List Char) (d : Char)
    (hocc : occursSub pat a = false) (hlast : a.getLast? = some d) (hd : d ∉ pat) :
    ∀ t, t ≠ [] → t <:+ a → List.isPrefixOf pat (t ++ pat ++ b) = false := by
  intro t ht hsuf
  rw [isPrefixOf_false_iff]
  intro hpre
  have htpre : t <+: t ++ pat ++ b := by
    rw [List.append_assoc]
    exact List.prefix_append t (pat ++ b)
  rcases le_or_lt pat.length t.length with hle | hlt
  · have hpt : pat <+: t := List.prefix_of_prefix_length_le hpre htpre hle
    have : pat <:+: a := hpt.isInfix.trans hsuf.isInfix
    rw [occursSub_false_iff] at hocc
    exact hocc this
  · have hpt : t <+: pat :=
      List.prefix_of_prefix_length_le htpre hpre (Nat.le_of_lt hlt)
    rcases hsuf with ⟨u, hu⟩
    have htl : t.getLast? = some d := by
      rw [← hlast, ← hu, List.getLast?_append_of_ne_nil u ht]
    exact hd (hpt.subset (mem_of_getLast_eq htl))

theorem splitWsAux_token : ∀ (tok cur rest : List Char),
    (∀ c ∈ tok, isPySpace c = false) → cur ++ tok ≠ [] →
    splitWsAux cur (tok ++ ' ' :: rest) = (cur ++ tok) :: splitWsAux [] rest := by
  intro tok
  induction tok with
  | nil =>
    intro cur rest _ hne
    rw [List.append_nil] at hne
    rw [List.nil_append, splitWsAux]
    rw [if_pos (show isPySpace ' ' = true from rfl)]
    rw [if_neg (by simpa [List.isEmpty_iff] using hne)]
    rw [List.append_nil]
  | cons c tok' ih =>
    intro cur rest hns hne
    have hc : isPySpace c = false := hns c (List.mem_cons_self c tok')
    rw [List.cons_append, splitWsAux]
    rw [if_neg (by rw [hc]; exact Bool.false_ne_true)]
    rw [ih (cur ++ [c]) rest (fun x hx => hns x (List.mem_cons_of_mem c hx)) (by simp)]
    rw [List.append_assoc, List.singleton_append]

theorem pySplitWs_token (tok rest : List Char) (h0 : tok ≠ [])
    (hns : ∀ c ∈ tok, isPySpace c = false) :
    pySplitWs (tok ++ ' ' :: rest) = tok :: pySplitWs rest := by
  have := splitWsAux_token tok [] rest hns (by simpa using h0)
  simpa [pySplitWs] using this

theorem breakAtColon_boundary : ∀ (a b : List Char), (∀ c ∈ a, c ≠ ':') →
    breakAtColon (a ++ ':' :: b) = some (a, b) := by
  intro a
  induction a with
  | nil => intro b _; simp [breakAtColon]
  | cons c a' ih =>
    intro b h
    have hc : c ≠ ':' := h c (List.mem_cons_self c a')
    rw [List.cons_append, breakAtColon, if_neg hc,
      ih b (fun x hx => h x (List.mem_cons_of_mem c hx))]
    rfl

/-! # Claim C3: PRIVMSG target and text extraction -/

theorem occursSub_origin_false (origin : List Char) (h : occursSub pmChars origin = false) :
    occursSub pmChars ((':' :: origin) ++ [' ']) = false := by
  rw [occursSub_false_iff]
  intro hin
  rw [List.cons_append] at hin
  have h1 : pmChars <:+: origin ++ [' '] := infix_of_cons_elim hin (by decide)
  have h2 : pmChars <:+: origin := infix_of_concat_elim h1 (by decide)
  exact (occursSub_false_iff _ _).mp h h2

theorem occursSub_tail_false (target text : List Char)
    (ht : occursSub pmChars target = false) (hx : occursSub pmChars text = false) :
    occursSub pmChars (' ' :: (target ++ (' ' :: (':' :: text)))) = false := by
  rw [occursSub_false_iff]
  intro hin
  have h1 : pmChars <:+: target ++ (' ' :: (':' :: text)) :=
    infix_of_cons_elim hin (by decide)
  rcases infix_of_middle_elim h1 (by decide) with h2 | h2
  · exact (occursSub_false_iff _ _).mp ht h2
  · exact (occursSub_false_iff _ _).mp hx (infix_of_cons_elim h2 (by decide))

/-- Claim C3 (corrected): on a line `:origin PRIVMSG <target> :<text>`
the dispatch code of lines 179-185 extracts the target as `parts[2]` and
the text via `line.split("PRIVMSG")[1].split(":", 1)[1].strip()`.  This
is correct only under the extra hypotheses forced by the substring-based
parsing: neither origin, target nor text may contain `PRIVMSG`
(otherwise `line.split("PRIVMSG")` cuts at the wrong place), the target
may not contain `':'`, and the text must carry no leading or trailing
whitespace (it is stripped).  Lines are selected as channel-message
events by the substring test `"PRIVMSG" in line`, not by their command
token. -/
theorem c3_amended :
    ∀ origin target text : List Char,
      (∀ c ∈ origin, isPySpace c = false) →
      occursSub pmChars origin = false →
      target ≠ [] →
      (∀ c ∈ target, isPySpace c = false) →
      (∀ c ∈ target, c ≠ ':') →
      occursSub pmChars target = false →
      occursSub pmChars text = false →
      pyStrip text = text →
      pmTarget ((':' :: origin) ++ (' ' :: (pmChars ++ (' ' :: (target ++ (' ' :: (':' :: text)))))))
          = some target ∧
      pmMessage ((':' :: origin) ++ (' ' :: (pmChars ++ (' ' :: (target ++ (' ' :: (':' :: text)))))))
          = some text ∧
      occursSub pmChars ((':' :: origin) ++ (' ' :: (pmChars ++ (' ' :: (target ++ (' ' :: (':' :: text)))))))
          = true := by
  intro origin target text ho1 ho2 ht0 ht1 ht3 ht2 hx1 hx2
  have hsw : pySplitWs ((':' :: origin) ++ (' ' :: (pmChars ++ (' ' :: (target ++ (' ' :: (':' :: text))))))) =
      (':' :: origin) :: pmChars :: target :: pySplitWs (':' :: text) := by
    rw [pySplitWs_token (':' :: origin) _ (by simp)
      (by
        intro c hc
        rcases List.mem_cons.mp hc with h | h
        · subst h; decide
        · exact ho1 c h)]
    rw [pySplitWs_token pmChars _ (by decide) (by decide)]
    rw [pySplitWs_token target _ ht0 ht1]
  have hline : (':' :: origin) ++ (' ' :: (pmChars ++ (' ' :: (target ++ (' ' :: (':' :: text)))))) =
      ((':' :: origin) ++ [' ']) ++ pmChars ++ (' ' :: (target ++ (' ' :: (':' :: text)))) := by
    simp
  refine ⟨?_, ?_, ?_⟩
  · rw [pmTarget, pyIndex, hsw]
    rfl
  · have hsplit : pySplitSub pmChars
        ((':' :: origin) ++ (' ' :: (pmChars ++ (' ' :: (target ++ (' ' :: (':' :: text))))))) =
        ((':' :: origin) ++ [' ']) ::
          pySplitSub pmChars (' ' :: (target ++ (' ' :: (':' :: text)))) := by
      rw [hline]
      exact pySplitSub_boundary pmChars (by decide) _ _
        (no_prefix_shift pmChars _ _ ' ' (occursSub_origin_false origin ho2)
          (List.getLast?_concat _) (by decide))
    have hb : pySplitSub pmChars (' ' :: (target ++ (' ' :: (':' :: text)))) =
        [' ' :: (target ++ (' ' :: (':' :: text)))] :=
      pySplitSub_no_occ _ _ (occursSub_tail_false target text ht2 hx1)
    have hbreak : breakAtColon (' ' :: (target ++ (' ' :: (':' :: text)))) =
        some (' ' :: (target ++ [' ']), text) := by
      have hshape : (' ' :: (target ++ (' ' :: (':' :: text)))) =
          (' ' :: (target ++ [' '])) ++ (':' :: text) := by simp
      rw [hshape]
      apply breakAtColon_boundary
      intro c hc
      rcases List.mem_cons.mp hc with h | h
      · subst h; decide
      · rcases List.mem_append.mp h with h' | h'
        · exact ht3 c h'
        · rw [List.mem_singleton] at h'
          subst h'; decide
    rw [pmMessage, pyIndex, hsplit, hb]
    show (match breakAtColon (' ' :: (target ++ (' ' :: (':' :: text)))) with
      | none => none
      | some p => some (pyStrip p.2)) = some text
    rw [hbreak]
    show some (pyStrip text) = some text
    rw [hx2]
  · rw [occursSub_true_iff]
    exact ⟨(':' :: origin) ++ [' '], ' ' :: (target ++ (' ' :: (':' :: text))), hline.symm⟩

/-- Counterexample for claim C3 as stated: (i) on the well-formed line
`:a!b PRIVMSG #help :foo PRIVMSG bar` the extracted text is `foo`, not
the actual trailing text `foo PRIVMSG bar`, because `split("PRIVMSG")`
also cuts inside the trailing text; (ii) the NOTICE line
`:a!b NOTICE #help :x PRIVMSG y :!help` — whose command token is NOTICE,
not PRIVMSG — is nevertheless treated as a channel-message event and even
answered, because the dispatch tests the substring `"PRIVMSG" in line`. -/
theorem c3_counterexample :
    pmMessage (":a!b PRIVMSG #help :foo PRIVMSG bar".data) = some ("foo".data) ∧
    ("foo".data : List Char) ≠ "foo PRIVMSG bar".data ∧
    processLine botChannels stubFetch (":a!b NOTICE #help :x PRIVMSG y :!help".data) =
      ([privmsgOut ("#help".data) helpMsg], none) ∧
    pyIndex (pySplitWs (":a!b NOTICE #help :x PRIVMSG y :!help".data)) 1 =
      some ("NOTICE".data) :=
  ⟨by decide, by decide, by decide, by decide⟩

/-- Witness for the amended C3 at the spec's own example line
`:nick!user@host PRIVMSG #chan :hello there`. -/
theorem c3_witness :
    pmTarget ((':' :: "nick!user@host".data) ++ (' ' :: (pmChars ++ (' ' :: ("#chan".data ++ (' ' :: (':' :: "hello there".data)))))))
        = some ("#chan".data) ∧
    pmMessage ((':' :: "nick!user@host".data) ++ (' ' :: (pmChars ++ (' ' :: ("#chan".data ++ (' ' :: (':' :: "hello there".data)))))))
        = some ("hello there".data) ∧
    occursSub pmChars ((':' :: "nick!user@host".data) ++ (' ' :: (pmChars ++ (' ' :: ("#chan".data ++ (' ' :: (':' :: "hello there".data)))))))
        = true :=
  c3_amended ("nick!user@host".data) ("#chan".data) ("hello there".data)
    (by decide) (by decide) (by decide) (by decide) (by decide) (by decide)
    (by decide) (by decide)

/-! # Claim C1: handling of structurally anomalous lines -/

/-- Claim C1 (corrected): an empty line is indeed skipped silently; but a
PING line with no token, or a line containing `PRIVMSG` with fewer than
three whitespace words, raises an uncaught `IndexError` inside the inner
loop (only `UnicodeDecodeError` is caught there), and an exception on one
line aborts the batch: the remaining lines of the same read are never
processed, and the connection is torn down by the outer handler. -/
theorem c1_amended :
    (∀ (channels : List (List Char)) (fetch : List Char → List Char),
      processLine channels fetch [] = ([], none)) ∧
    (∀ (channels : List (List Char)) (fetch : List Char → List Char) (line : List Char),
      pyStartsWith pingChars line = true →
      pyIndex (pySplitWs line) 1 = none →
      processLine channels fetch line = ([], some PyErr.indexError)) ∧
    (∀ (channels : List (List Char)) (fetch : List Char → List Char) (line : List Char),
      pyStartsWith pingChars line = false →
      occursSub pmChars line = true →
      pyIndex (pySplitWs line) 2 = none →
      processLine channels fetch line = ([], some PyErr.indexError)) ∧
    (∀ (channels : List (List Char)) (fetch : List Char → List Char)
        (pre post : List (List Char)) (line : List Char)
        (o o1 : List (List Char)) (e : PyErr),
      processBatch channels fetch pre = (o, none) →
      processLine channels fetch line = (o1, some e) →
      processBatch channels fetch (pre ++ line :: post) = (o ++ o1, some e)) := by
  refine ⟨?_, ?_, ?_, ?_⟩
  · intro channels fetch
    rfl
  · intro channels fetch line h1 h2
    have hp : pingPhase line = ([], some PyErr.indexError) := by
      rw [pingPhase, h1]
      simp only [if_true]
      rw [h2]
    show (match pingPhase line with
      | (o, some e) => (o, some e)
      | (o, none) =>
        let p := privmsgPhase channels fetch line
        (o ++ p.1, p.2)) = ([], some PyErr.indexError)
    rw [hp]
  · intro channels fetch line h1 h2 h3
    have hp : pingPhase line = ([], none) := by
      rw [pingPhase, h1]
      simp only [Bool.false_eq_true, if_false]
    have hq : privmsgPhase channels fetch line = ([], some PyErr.indexError) := by
      rw [privmsgPhase, h2]
      simp only [if_true]
      rw [pmTarget, h3]
    show (match pingPhase line with
      | (o, some e) => (o, some e)
      | (o, none) =>
        let p := privmsgPhase channels fetch line
        (o ++ p.1, p.2)) = ([], some PyErr.indexError)
    rw [hp, hq]
    rfl
  · intro channels fetch pre
    induction pre with
    | nil =>
      intro post line o o1 e h1 h2
      have ho : o = ([] : List (List Char)) := by
        have : (([], none) : List (List Char) × Option PyErr) = (o, none) := h1
        exact ((Prod.mk.injEq _ _ _ _).mp this.symm).1
      subst ho
      show (match processLine channels fetch line with
        | (o, some e) => (o, some e)
        | (o, none) =>
          let p := processBatch channels fetch post
          (o ++ p.1, p.2)) = ([] ++ o1, some e)
      rw [h2, List.nil_append]
    | cons l pre' ih =>
      intro post line o o1 e h1 h2
      have hstep : ∀ rest : List (List Char),
          processBatch channels fetch (l :: rest) =
            (match processLine channels fetch l with
              | (ol, some el) => (ol, some el)
              | (ol, none) =>
                let p := processBatch channels fetch rest
                (ol ++ p.1, p.2)) := fun _ => rfl
      rcases hpl : processLine channels fetch l with ⟨ol, eol⟩
      cases eol with
      | some el =>
        rw [hstep pre', hpl] at h1
        exact absurd (congrArg Prod.snd h1) (by simp)
      | none =>
        rcases hpb : processBatch channels fetch pre' with ⟨o2, e2⟩
        rw [hstep pre', hpl, hpb] at h1
        have he2 : e2 = none := congrArg Prod.snd h1
        have ho : o = ol ++ o2 := (congrArg Prod.fst h1).symm
        subst he2 ho
        rw [List.cons_append, hstep (pre' ++ line :: post), hpl,
          ih post line o2 o1 e (by rw [hpb]) h2]
        simp [List.append_assoc]

/-- Counterexample for claim C1 as stated: the anomalous line `PING`
(no token) raises `IndexError` instead of being skipped, and in the batch
`["PING", "PING :tok"]` the second line is never processed (no `PONG tok`
is emitted) because the exception aborts the loop; only the empty line is
skipped silently. -/
theorem c1_counterexample :
    processLine botChannels stubFetch ("PING".data) = ([], some PyErr.indexError) ∧
    processBatch botChannels stubFetch ["PING".data, "PING :tok".data] =
      ([], some PyErr.indexError) ∧
    processLine botChannels stubFetch [] = ([], none) :=
  ⟨by decide, by decide, by decide⟩

/-- Witness for the amended C1: an empty line followed by a token-less
PING line aborts the batch before the later `PING :A` line is reached. -/
theorem c1_witness :
    processBatch botChannels stubFetch ([[]] ++ ("PING".data) :: ["PING :A".data]) =
      ([] ++ [], some PyErr.indexError) :=
  c1_amended.2.2.2 botChannels stubFetch [[]] (["PING :A".data]) ("PING".data)
    [] [] PyErr.indexError (by decide) (by decide)

/-! # Claim C4: PONG ordering -/

theorem regAfterPing_outs (b : List Char) (l : List (List Char)) :
    ∃ outcome, regAfterPing b l = (l, outcome) := by
  unfold regAfterPing
  split
  · exact ⟨_, rfl⟩
  · split
    · exact ⟨_, rfl⟩
    · exact ⟨_, rfl⟩

theorem processBatch_append_ok (channels : List (List Char)) (fetch : List Char → List Char) :
    ∀ (pre rest : List (List Char)) (o : List (List Char)),
      processBatch channels fetch pre = (o, none) →
      processBatch channels fetch (pre ++ rest) =
        (o ++ (processBatch channels fetch rest).1, (processBatch channels fetch rest).2) := by
  intro pre
  induction pre with
  | nil =>
    intro rest o h
    have ho : o = ([] : List (List Char)) := by
      have h' : (([], none) : List (List Char) × Option PyErr) = (o, none) := h
      exact ((Prod.mk.injEq _ _ _ _).mp h'.symm).1
    subst ho
    rw [List.nil_append, List.nil_append]
  | cons l pre' ih =>
    intro rest o h
    have hstep : ∀ tail : List (List Char),
        processBatch channels fetch (l :: tail) =
          (match processLine channels fetch l with
            | (ol, some el) => (ol, some el)
            | (ol, none) =>
              let p := processBatch channels fetch tail
              (ol ++ p.1, p.2)) := fun _ => rfl
    rcases hpl : processLine channels fetch l with ⟨ol, eol⟩
    cases eol with
    | some el =>
      rw [hstep pre', hpl] at h
      exact absurd (congrArg Prod.snd h) (by simp)
    | none =>
      rcases hpb : processBatch channels fetch pre' with ⟨o2, e2⟩
      rw [hstep pre', hpl, hpb] at h
      have he2 : e2 = none := congrArg Prod.snd h
      have ho : o = ol ++ o2 := (congrArg Prod.fst h).symm
      subst he2 ho
      rw [List.cons_append, hstep (pre' ++ rest), hpl, ih rest o2 (by rw [hpb])]
      simp [List.append_assoc]

/-- Claim C4 (corrected): in the Active loop the property holds — for a
batch whose earlier lines process cleanly, a line starting with `PING`
that has a second whitespace token `tok` causes `PONG tok` to be emitted
immediately after the outputs of the earlier lines, hence before any
output of later lines of the batch.  During registration a PONG is also
emitted in the same iteration (keep-alives are not deferred), but the
token echoed is whatever follows the FIRST occurrence of `PING` in the
accumulated, never-trimmed buffer — so a later PING in the same
registration attempt can be answered with an earlier PING's token. -/
theorem c4_amended :
    (∀ (channels : List (List Char)) (fetch : List Char → List Char)
        (pre post : List (List Char)) (line tok : List Char) (o : List (List Char)),
      processBatch channels fetch pre = (o, none) →
      pyStartsWith pingChars line = true →
      pyIndex (pySplitWs line) 1 = some tok →
      ∃ o2 err, processBatch channels fetch (pre ++ line :: post) =
        (o ++ pongMsg tok :: o2, err)) ∧
    (∀ buffer chunk tok : List Char,
      occursSub pingChars (buffer ++ chunk) = true →
      pyIndex (pySplitWs (dropFromPat pingChars (buffer ++ chunk))) 1 = some tok →
      ∃ outcome, regStep buffer chunk = ([pongMsg tok], outcome)) := by
  constructor
  · intro channels fetch pre post line tok o hpre hping htok
    have hp : pingPhase line = ([pongMsg tok], none) := by
      rw [pingPhase, hping]
      simp only [if_true]
      rw [htok]
    rcases hq : privmsgPhase channels fetch line with ⟨oq, e2⟩
    have hl : processLine channels fetch line = (pongMsg tok :: oq, e2) := by
      show (match pingPhase line with
        | (o, some e) => (o, some e)
        | (o, none) =>
          let p := privmsgPhase channels fetch line
          (o ++ p.1, p.2)) = _
      rw [hp, hq]
      rfl
    rw [processBatch_append_ok channels fetch pre (line :: post) o hpre]
    cases e2 with
    | some e =>
      have hlp : processBatch channels fetch (line :: post) = (pongMsg tok :: oq, some e) := by
        show (match processLine channels fetch line with
          | (ol, some el) => (ol, some el)
          | (ol, none) =>
            let p := processBatch channels fetch post
            (ol ++ p.1, p.2)) = _
        rw [hl]
      rw [hlp]
      exact ⟨oq, some e, rfl⟩
    | none =>
      rcases hrest : processBatch channels fetch post with ⟨o3, e3⟩
      have hlp : processBatch channels fetch (line :: post) =
          (pongMsg tok :: (oq ++ o3), e3) := by
        show (match processLine channels fetch line with
          | (ol, some el) => (ol, some el)
          | (ol, none) =>
            let p := processBatch channels fetch post
            (ol ++ p.1, p.2)) = _
        rw [hl, hrest]
        rfl
      rw [hlp]
      exact ⟨oq ++ o3, e3, rfl⟩
  · intro buffer chunk tok hocc htok
    have hdef : regStep buffer chunk =
        (if occursSub pingChars (buffer ++ chunk) then
          match pyIndex (pySplitWs (dropFromPat pingChars (buffer ++ chunk))) 1 with
          | none => ([], RegOutcome.failed)
          | some tok => regAfterPing (buffer ++ chunk) [pongMsg tok]
        else regAfterPing (buffer ++ chunk) []) := rfl
    rw [hdef, hocc]
    simp only [if_true]
    rw [htok]
    exact regAfterPing_outs _ _

/-- Counterexample for claim C4 as stated: one registration read
delivering the batch `PING :A\r\nPING :B\r\n` is answered with a single
`PONG :A`; the `PING :B` event of the same batch never receives a PONG
carrying its own token. -/
theorem c4_counterexample :
    regRun [] ["PING :A\r\nPING :B\r\n".data] = ([pongMsg (":A".data)], none) ∧
    pongMsg (":B".data) ∉ (regRun [] ["PING :A\r\nPING :B\r\n".data]).1 :=
  ⟨by decide, by decide⟩

/-- Witness for the amended C4: a `PING :xyz` line at the head of a batch
is answered before the later PRIVMSG line of the batch is processed. -/
theorem c4_witness :
    ∃ o2 err, processBatch botChannels stubFetch
        ([] ++ ("PING :xyz".data) :: [":a!b PRIVMSG #help :hi".data]) =
      ([] ++ pongMsg (":xyz".data) :: o2, err) :=
  c4_amended.1 botChannels stubFetch [] [":a!b PRIVMSG #help :hi".data]
    ("PING :xyz".data) (":xyz".data) [] (by decide) (by decide) (by decide)

/-! # Claims C5 and C10: registration wait and clean remote close -/

theorem regStep_def (buffer chunk : List Char) :
    regStep buffer chunk =
      (if occursSub pingChars (buffer ++ chunk) then
        match pyIndex (pySplitWs (dropFromPat pingChars (buffer ++ chunk))) 1 with
        | none => ([], RegOutcome.failed)
        | some tok => regAfterPing (buffer ++ chunk) [pongMsg tok]
      else regAfterPing (buffer ++ chunk) []) := rfl

theorem regRun_cons (buffer c : List Char) (cs : List (List Char)) :
    regRun buffer (c :: cs) =
      (match regStep buffer c with
        | (o, RegOutcome.registered) => (o, some true)
        | (o, RegOutcome.failed) => (o, some false)
        | (o, RegOutcome.waiting b') =>
          let q := regRun b' cs
          (o ++ q.1, q.2)) := rfl

theorem regAfterPing_registered (b : List Char) (l : List (List Char))
    (h : occursSub reg001 b = true) : regAfterPing b l = (l, RegOutcome.registered) := by
  rw [regAfterPing, h]
  rw [if_pos rfl]

theorem regAfterPing_failed (b : List Char) (l : List (List Char))
    (h1 : occursSub reg001 b = false)
    (h2 : (occursSub closingLinkChars b || occursSub errorChars b) = true) :
    regAfterPing b l = (l, RegOutcome.failed) := by
  rw [regAfterPing, h1, h2]
  rw [if_neg (by exact Bool.false_ne_true), if_pos rfl]

theorem regAfterPing_waiting (b : List Char) (l : List (List Char))
    (h1 : occursSub reg001 b = false)
    (h2 : (occursSub closingLinkChars b || occursSub errorChars b) = false) :
    regAfterPing b l = (l, RegOutcome.waiting b) := by
  rw [regAfterPing, h1, h2]
  rw [if_neg (by exact Bool.false_ne_true), if_neg (by exact Bool.false_ne_true)]

/-- Claim C5 (corrected): the registration wait exits registered when
`"001"` appears in the accumulated buffer, and abandons the attempt when
`"Closing Link"` or `"ERROR"` appears (or when reading the PING token
itself raises); but there is no timeout of any kind: on a stream that
supplies neither — such as the endless empty reads of a cleanly closed
connection — the loop iterates forever without terminating. -/
theorem c5_amended :
    (∀ buffer chunk : List Char,
      occursSub reg001 (buffer ++ chunk) = true →
      (occursSub pingChars (buffer ++ chunk) = false ∨
        pyIndex (pySplitWs (dropFromPat pingChars (buffer ++ chunk))) 1 ≠ none) →
      ∃ outs, regStep buffer chunk = (outs, RegOutcome.registered)) ∧
    (∀ buffer chunk : List Char,
      occursSub reg001 (buffer ++ chunk) = false →
      (occursSub closingLinkChars (buffer ++ chunk) = true ∨
        occursSub errorChars (buffer ++ chunk) = true) →
      (occursSub pingChars (buffer ++ chunk) = false ∨
        pyIndex (pySplitWs (dropFromPat pingChars (buffer ++ chunk))) 1 ≠ none) →
      ∃ outs, regStep buffer chunk = (outs, RegOutcome.failed)) ∧
    (∀ buffer : List Char,
      occursSub reg001 buffer = false →
      occursSub closingLinkChars buffer = false →
      occursSub errorChars buffer = false →
      occursSub pingChars buffer = false →
      ∀ n, regRun buffer (List.replicate n []) = ([], none)) := by
  refine ⟨?_, ?_, ?_⟩
  · intro buffer chunk h001 hping
    rw [regStep_def]
    cases hp : occursSub pingChars (buffer ++ chunk) with
    | false =>
      rw [if_neg (by exact Bool.false_ne_true)]
      exact ⟨[], regAfterPing_registered _ _ h001⟩
    | true =>
      rw [if_pos rfl]
      rcases hping with hping | hping
      · rw [hping] at hp
        exact absurd hp (by simp)
      · rcases Option.ne_none_iff_exists'.mp hping with ⟨tok, htok⟩
        rw [htok]
        exact ⟨[pongMsg tok], regAfterPing_registered _ _ h001⟩
  · intro buffer chunk h001 herr hping
    have herr' : (occursSub closingLinkChars (buffer ++ chunk) ||
        occursSub errorChars (buffer ++ chunk)) = true := by
      rcases herr with h | h <;> simp [h]
    rw [regStep_def]
    cases hp : occursSub pingChars (buffer ++ chunk) with
    | false =>
      rw [if_neg (by exact Bool.false_ne_true)]
      exact ⟨[], regAfterPing_failed _ _ h001 herr'⟩
    | true =>
      rw [if_pos rfl]
      rcases hping with hping | hping
      · rw [hping] at hp
        exact absurd hp (by simp)
      · rcases Option.ne_none_iff_exists'.mp hping with ⟨tok, htok⟩
        rw [htok]
        exact ⟨[pongMsg tok], regAfterPing_failed _ _ h001 herr'⟩
  · intro buffer h001 hcl herr hping n
    induction n with
    | zero => rfl
    | succ n' ih =>
      rw [List.replicate_succ, regRun_cons]
      have hstep : regStep buffer [] = ([], RegOutcome.waiting buffer) := by
        rw [regStep_def, List.append_nil]
        rw [if_neg (by rw [hping]; exact Bool.false_ne_true)]
        exact regAfterPing_waiting _ _ h001 (by rw [hcl, herr]; rfl)
      rw [hstep]
      show ([] ++ (regRun buffer (List.replicate n' [])).1,
        (regRun buffer (List.replicate n' [])).2) = ([], none)
      rw [ih]
      rfl

/-- Counterexample for claim C5 as stated: with a cleanly closed link the
socket read returns an empty chunk forever; one such step is a fixpoint
of the registration wait (same state, no exit), so the wait never reaches
001, never sees an error signal, and no bounded timeout exists — after
100 consecutive empty reads it is still waiting. -/
theorem c5_counterexample :
    regStep [] [] = ([], RegOutcome.waiting []) ∧
    regRun [] (List.replicate 100 []) = ([], none) :=
  ⟨by decide, by decide⟩

/-- Witness for the amended C5: a read containing `001` exits registered,
and a buffer of non-matching noise spins unchanged over empty reads. -/
theorem c5_witness :
    (∃ outs, regStep [] ("001 welcome\r\n".data) = (outs, RegOutcome.registered)) ∧
    regRun ("noise".data) (List.replicate 3 []) = ([], none) :=
  ⟨c5_amended.1 [] ("001 welcome\r\n".data) (by decide) (Or.inl (by decide)),
    c5_amended.2.2 ("noise".data) (by decide) (by decide) (by decide) (by decide) 3⟩

theorem splitCRLF_no_term : ∀ s : List Char, occursSub crlf s = false → splitCRLF s = [s] := by
  intro s
  match s with
  | [] => intro _; rfl
  | [c] => intro _; rfl
  | c :: d :: rest =>
    intro h
    rw [occursSub, Bool.or_eq_false_iff] at h
    have hcd : ¬(c = '\r' ∧ d = '\n') := by
      rintro ⟨h1, h2⟩
      subst h1 h2
      have htrue : List.isPrefixOf crlf ('\r' :: '\n' :: rest) = true := by
        simp [crlf, List.isPrefixOf]
      rw [htrue] at h
      exact absurd h.1 (by decide)
    rw [splitCRLF, if_neg hcd]
    have htail : occursSub crlf (d :: rest) = false := h.2
    rw [splitCRLF_no_term (d :: rest) htail]
    rfl

theorem activeStep_def (channels : List (List Char)) (fetch : List Char → List Char)
    (buffer chunk : List Char) :
    activeStep channels fetch buffer chunk =
      ((processBatch channels fetch (framerStep buffer chunk).1).1,
        (framerStep buffer chunk).2,
        (processBatch channels fetch (framerStep buffer chunk).1).2) := rfl

theorem activeRun_cons (channels : List (List Char)) (fetch : List Char → List Char)
    (buffer c : List Char) (cs : List (List Char)) :
    activeRun channels fetch buffer (c :: cs) =
      (match activeStep channels fetch buffer c with
        | (o, b', some e) => (o, b', some e)
        | (o, b', none) =>
          let q := activeRun channels fetch b' cs
          (o ++ q.1, q.2.1, q.2.2)) := rfl

/-- Claim C10 (corrected): an empty chunk leaves both loops iterating
with an unchanged buffer and without any exit or reconnect — so the loops
spin on the dead link indefinitely — and the active loop emits nothing;
but the registration loop re-emits a PONG on every iteration whenever the
accumulated buffer already contains `"PING"`, so "emit no output" does
not hold there. -/
theorem c10_amended :
    (∀ (channels : List (List Char)) (fetch : List Char → List Char) (buffer : List Char),
      occursSub crlf buffer = false →
      activeStep channels fetch buffer [] = ([], buffer, none)) ∧
    (∀ buffer : List Char,
      occursSub reg001 buffer = false →
      occursSub closingLinkChars buffer = false →
      occursSub errorChars buffer = false →
      occursSub pingChars buffer = false →
      regStep buffer [] = ([], RegOutcome.waiting buffer)) ∧
    (∀ buffer tok : List Char,
      occursSub pingChars buffer = true →
      pyIndex (pySplitWs (dropFromPat pingChars buffer)) 1 = some tok →
      occursSub reg001 buffer = false →
      occursSub closingLinkChars buffer = false →
      occursSub errorChars buffer = false →
      regStep buffer [] = ([pongMsg tok], RegOutcome.waiting buffer)) ∧
    (∀ (channels : List (List Char)) (fetch : List Char → List Char) (buffer : List Char),
      occursSub crlf buffer = false →
      ∀ n, activeRun channels fetch buffer (List.replicate n []) = ([], buffer, none)) := by
  have hstep : ∀ (channels : List (List Char)) (fetch : List Char → List Char)
      (buffer : List Char), occursSub crlf buffer = false →
      activeStep channels fetch buffer [] = ([], buffer, none) := by
    intro channels fetch buffer h
    have hf : framerStep buffer [] = ([], buffer) := by
      rw [framerStep, List.append_nil, splitCRLF_no_term buffer h]
      rfl
    rw [activeStep_def, hf]
    rfl
  refine ⟨hstep, ?_, ?_, ?_⟩
  · intro buffer h001 hcl herr hping
    rw [regStep_def, List.append_nil]
    rw [if_neg (by rw [hping]; exact Bool.false_ne_true)]
    exact regAfterPing_waiting _ _ h001 (by rw [hcl, herr]; rfl)
  · intro buffer tok hping htok h001 hcl herr
    rw [regStep_def, List.append_nil]
    rw [if_pos (by rw [hping]), htok]
    exact regAfterPing_waiting _ _ h001 (by rw [hcl, herr]; rfl)
  · intro channels fetch buffer h n
    induction n with
    | zero => rfl
    | succ n' ih =>
      rw [List.replicate_succ, activeRun_cons, hstep channels fetch buffer h]
      show ([] ++ (activeRun channels fetch buffer (List.replicate n' [])).1,
        (activeRun channels fetch buffer (List.replicate n' [])).2.1,
        (activeRun channels fetch buffer (List.replicate n' [])).2.2) = ([], buffer, none)
      rw [ih]
      rfl

/-- Counterexample for claim C10 as stated: in a registration state whose
accumulated buffer already holds an answered `PING :A`, an empty read
(clean remote close) emits a fresh `PONG :A` — output is produced, so the
loops do not all stay silent. -/
theorem c10_counterexample :
    regStep ("PING :A\r\n".data) [] =
      ([pongMsg (":A".data)], RegOutcome.waiting ("PING :A\r\n".data)) ∧
    (regStep ("PING :A\r\n".data) []).1 ≠ [] :=
  ⟨by decide, by decide⟩

/-- Witness for the amended C10: empty chunks leave the active loop
silent and unchanged (also over four consecutive empty reads), while a
registration buffer with PING residue re-emits its PONG. -/
theorem c10_witness :
    activeStep botChannels stubFetch ("partial line".data) [] =
      ([], "partial line".data, none) ∧
    activeRun botChannels stubFetch ("partial line".data) (List.replicate 4 []) =
      ([], "partial line".data, none) ∧
    regStep ("noise PING :A".data) [] =
      ([pongMsg (":A".data)], RegOutcome.waiting ("noise PING :A".data)) :=
  ⟨c10_amended.1 botChannels stubFetch ("partial line".data) (by decide),
    c10_amended.2.2.2 botChannels stubFetch ("partial line".data) (by decide) 4,
    c10_amended.2.2.1 ("noise PING :A".data) (":A".data) (by decide) (by decide)
      (by decide) (by decide) (by decide)⟩

/-! # Claim C6: weather command matching -/

/-- Claim C6 (corrected): the weather branch is selected by the prefix
test `message.startswith("!weather")`, not by an exact-token match on the
first word — so `!weatherx` also enters it; within the branch, a first
word of exactly `!weather` behaves as specified (usage reply without
arguments, lookup of the space-joined remaining words otherwise). -/
theorem c6_amended :
    (∀ m : List Char,
      (∃ a, routeMessage m = some a ∧ a ≠ RouterAction.help) ↔
        pyStartsWith weatherCmd m = true) ∧
    (∀ (m : List Char) (rest : List (List Char)),
      pyStartsWith weatherCmd m = true →
      pySplitWs m = weatherCmd :: rest →
      rest ≠ [] →
      routeMessage m = some (RouterAction.weather (joinSpace rest))) ∧
    (∀ m : List Char,
      pyStartsWith weatherCmd m = true →
      pySplitWs m = [weatherCmd] →
      routeMessage m = some RouterAction.usage) := by
  refine ⟨?_, ?_, ?_⟩
  · intro m
    constructor
    · rintro ⟨a, ha, hne⟩
      cases hx : pyStartsWith weatherCmd m with
      | true => rfl
      | false =>
        exfalso
        rw [routeMessage, hx] at ha
        simp only [Bool.false_eq_true, if_false] at ha
        by_cases hm : m = helpCmd
        · rw [if_pos hm] at ha
          exact hne (Option.some_inj.mp ha.symm)
        · rw [if_neg hm] at ha
          exact Option.noConfusion ha
    · intro h
      rw [routeMessage, h]
      simp only [if_true]
      by_cases hlen : (pySplitWs m).length > 1
      · rw [if_pos hlen]
        exact ⟨_, rfl, by simp⟩
      · rw [if_neg hlen]
        exact ⟨_, rfl, by simp⟩
  · intro m rest h hsplit hne
    have hpos : 0 < rest.length := List.length_pos.mpr hne
    rw [routeMessage, h]
    simp only [if_true]
    rw [hsplit]
    rw [if_pos (by simp only [List.length_cons]; omega)]
    simp
  · intro m h hsplit
    rw [routeMessage, h]
    simp only [if_true]
    rw [hsplit]
    rw [if_neg (by simp)]

/-- Counterexample for claim C6 as stated: the message `!weatherx Paris`,
whose first word is `!weatherx` and not the token `!weather`, nevertheless
invokes the weather lookup with city `Paris`. -/
theorem c6_counterexample :
    routeMessage ("!weatherx Paris".data) =
      some (RouterAction.weather ("Paris".data)) ∧
    pyIndex (pySplitWs ("!weatherx Paris".data)) 0 = some ("!weatherx".data) ∧
    ("!weatherx".data : List Char) ≠ weatherCmd :=
  ⟨by decide, by decide, by decide⟩

/-- Witness for the amended C6: `!weather New York` dispatches a lookup
of the space-joined remaining words. -/
theorem c6_witness :
    routeMessage ("!weather New York".data) =
      some (RouterAction.weather (joinSpace ["New".data, "York".data])) :=
  c6_amended.2.1 ("!weather New York".data) ["New".data, "York".data]
    (by decide) (by decide) (by decide)

/-! # Claim C7: weather lookup boundary -/

/-- Claim C7 (corrected): `get_weather` is total — for every outcome of
the two external calls it returns a displayable string, never raising
past its boundary (its whole body is wrapped in `try`/`except` returning
strings, which the embedding realises as a total function).  But the
failure texts a user can observe number three, not two: besides
`Could not find location: X` and `Error fetching weather data: ...`,
a forecast response with a non-200 status yields
`Could not fetch weather data for X` (line 149). -/
theorem c7_amended :
    ∀ (city : List Char) (geoResp : HttpResult (List GeoLocation))
      (wxResp : HttpResult (Option CurrentWx)),
      (∃ n c d t h w, get_weather city geoResp wxResp = weatherReport n c d t h w) ∨
      get_weather city geoResp wxResp = "Could not find location: ".data ++ city ∨
      (∃ e, get_weather city geoResp wxResp = "Error fetching weather data: ".data ++ e) ∨
      get_weather city geoResp wxResp = "Could not fetch weather data for ".data ++ city := by
  intro city geoResp wxResp
  cases hg : get_coordinates geoResp with
  | none =>
    refine Or.inr (Or.inl ?_)
    simp only [get_weather, hg]
  | some loc =>
    cases wxResp with
    | exn msg =>
      refine Or.inr (Or.inr (Or.inl ⟨msg, ?_⟩))
      simp only [get_weather, hg]
    | ok status body =>
      by_cases hs : status = 200
      · subst hs
        cases body with
        | none =>
          refine Or.inr (Or.inr (Or.inl ⟨"'current'".data, ?_⟩))
          simp only [get_weather, hg]
          simp
        | some current =>
          refine Or.inl ⟨loc.name, loc.country,
            (weather_codes current.weather_code).getD ("Unknown".data),
            current.temperature_2m, current.relative_humidity_2m,
            current.wind_speed_10m, ?_⟩
          simp only [get_weather, hg]
          simp
      · refine Or.inr (Or.inr (Or.inr ?_))
        simp only [get_weather, hg]
        rw [if_neg hs]

/-- Counterexample for claim C7 as stated: a geocoded city whose forecast
call returns HTTP 500 produces the user-visible reply
`Could not fetch weather data for London`, which is neither of the two
failure texts the claim lists. -/
theorem c7_counterexample :
    get_weather ("London".data)
        (HttpResult.ok 200 [⟨"51.5".data, "-0.1".data, "London".data, "United Kingdom".data⟩])
        (HttpResult.ok 500 none) =
      "Could not fetch weather data for London".data ∧
    pyStartsWith ("Could not find location:".data)
      ("Could not fetch weather data for London".data) = false ∧
    pyStartsWith ("Error fetching weather data:".data)
      ("Could not fetch weather data for London".data) = false :=
  ⟨by decide, by decide, by decide⟩

/-! # Claim C8: channel scoping of PRIVMSG -/

/-- Claim C8: a line carrying `PRIVMSG` whose extracted target
(`parts[2]`) is not a member of the configured channel list produces no
output whatsoever — independently of the weather collaborator — and in
particular a direct message addressed to the bot's nickname is ignored. -/
theorem c8_privmsg_channel_scope :
    ∀ (channels : List (List Char)) (fetch : List Char → List Char)
      (line target : List Char),
      pyStartsWith pingChars line = false →
      occursSub pmChars line = true →
      pmTarget line = some target →
      target ∉ channels →
      processLine channels fetch line = ([], none) := by
  intro channels fetch line target h1 h2 htarget hmem
  have hp : pingPhase line = ([], none) := by
    rw [pingPhase, h1]
    simp only [Bool.false_eq_true, if_false]
  have hq : privmsgPhase channels fetch line = ([], none) := by
    rw [privmsgPhase, h2]
    simp only [if_true]
    rw [htarget]
    show (if target ∈ channels then
      match pmMessage line with
      | none => ([], some PyErr.indexError)
      | some message =>
        match routeMessage message with
        | some (RouterAction.weather city) => ([privmsgOut target (fetch city)], none)
        | some RouterAction.usage => ([privmsgOut target usageMsg], none)
        | some RouterAction.help => ([privmsgOut target helpMsg], none)
        | none => ([], none)
      else ([], none)) = (([], none) : List (List Char) × Option PyErr)
    rw [if_neg hmem]
  show (match pingPhase line with
    | (o, some e) => (o, some e)
    | (o, none) =>
      let p := privmsgPhase channels fetch line
      (o ++ p.1, p.2)) = ([], none)
  rw [hp, hq]
  rfl

/-- Witness for C8: a private message to the bot's own nick is dropped
with no reply and no lookup. -/
theorem c8_witness :
    processLine botChannels stubFetch
      (":alice!u@h PRIVMSG WeatherBot :!weather Paris".data) = ([], none) :=
  c8_privmsg_channel_scope botChannels stubFetch
    (":alice!u@h PRIVMSG WeatherBot :!weather Paris".data) ("WeatherBot".data)
    (by decide) (by decide) (by decide) (by decide)

/-! # Claim C9: reconnect cooldown and fresh buffer -/

theorem runBot_cons (channels : List (List Char)) (fetch : List Char → List Char)
    (s : SessionScript) (rest : List SessionScript) :
    runBot channels fetch (s :: rest) =
      Ev.connectAttempt :: (sessionEvents channels fetch s ++ runBot channels fetch rest) :=
  rfl

/-- Claim C9: after a fatal error ends the active phase, the outer loop
sleeps the 30-second cooldown — strictly longer than the 5-second
registration-retry delay — before the next connect attempt, and each
successful connect re-creates the framing buffer empty (the active phase
always runs `activeRun` from `[]`): no residue crosses reconnects. -/
theorem c9_reconnect_cooldown :
    reconnectCooldown > registrationRetryDelay ∧
    (∀ (channels : List (List Char)) (fetch : List Char → List Char)
        (s : SessionScript) (rest : List SessionScript),
      s.connectResult = true →
      runBot channels fetch (s :: rest) =
        Ev.connectAttempt :: Ev.bufferReset ::
          ((activeRun channels fetch [] s.chunks).1.map Ev.out ++
            Ev.sleep reconnectCooldown :: runBot channels fetch rest)) ∧
    (∀ (channels : List (List Char)) (fetch : List Char → List Char)
        (s : SessionScript) (rest : List SessionScript),
      s.connectResult = false →
      runBot channels fetch (s :: rest) =
        Ev.connectAttempt :: Ev.sleep registrationRetryDelay ::
          runBot channels fetch rest) := by
  refine ⟨by decide, ?_, ?_⟩
  · intro channels fetch s rest h
    rw [runBot_cons, sessionEvents, h]
    simp only [if_true]
    simp [List.append_assoc]
  · intro channels fetch s rest h
    rw [runBot_cons, sessionEvents, h]
    simp only [Bool.false_eq_true, if_false]
    rfl

/-- Witness for C9 on a one-session script that registers, answers one
PING, and dies fatally. -/
theorem c9_witness :
    runBot botChannels stubFetch [⟨true, ["PING :A\r\n".data]⟩] =
      Ev.connectAttempt :: Ev.bufferReset ::
        ((activeRun botChannels stubFetch [] ["PING :A\r\n".data]).1.map Ev.out ++
          Ev.sleep reconnectCooldown :: runBot botChannels stubFetch []) :=
  c9_reconnect_cooldown.2.1 botChannels stubFetch ⟨true, ["PING :A\r\n".data]⟩ []
    (by decide)
